import Mathlib

set_option maxHeartbeats 1000000
set_option maxRecDepth 4000

/-!
Verification of the image-processing pipeline in src/image_processor.py.

The Python program is shallowly embedded: pure helpers become Lean
functions over explicit data, machine bytes become Nat values, the two
network calls are modelled by injecting the HTTP response as an argument,
the on-disk state is an explicit association list from file names to
stored images, and exceptions become Except / an error component.
The external library operations the source calls (numpy slicing, OpenCV
Canny / dilate / morphologyEx / GaussianBlur, PIL convert / alpha_composite,
os.path.join) are modelled after the documented semantics of those
libraries, since their code is not part of this repository.
-/

namespace ImageProcessor

/-- One RGBA pixel; channels are 8-bit bytes in the program, modelled as Nat. -/
structure RGBA where
  r : Nat
  g : Nat
  b : Nat
  a : Nat
deriving DecidableEq, Repr

/-- A decoded 4-channel image buffer: rows of pixels (row-major, as numpy sees a PIL RGBA image). -/
abbrev Img := List (List RGBA)

/-- A single-channel 8-bit map (the alpha plane / the outline mask). -/
abbrev Mask := List (List Nat)

/-- Well-formedness of a rectangular grid: exactly h rows, each of length w. -/
def Wf (g : List (List α)) (h w : Nat) : Prop :=
  g.length = h ∧ ∀ i, i < h → (g.getD i []).length = w

instance (g : List (List α)) (h w : Nat) : Decidable (Wf g h w) := by
  unfold Wf
  exact instDecidableAnd

/-! ### Python objects: PIL images, HTTP responses, exceptions -/

/-- A decoded PIL image, abstracted by its mode and channel data.
The modes that matter to the pipeline: RGBA (4 channels), RGB (3 channels),
L (single channel grayscale). -/
inductive PILImage where
  | rgba (data : Img)
  | rgb (data : List (List (Nat × Nat × Nat)))
  | gray (data : List (List Nat))
deriving DecidableEq

/-- An argument of a raised Python exception. -/
inductive PyVal where
  | str (s : String)
  | int (n : Nat)
deriving DecidableEq

/-- A raised Python exception, abstracted by its constructor arguments. -/
inductive PyErr where
  | exn (args : List PyVal)
deriving DecidableEq

/-- An HTTP response, abstracted by its status code, its body rendered as
text (used in error messages), and the image its body decodes to
(used on the success path). -/
structure HttpResp where
  status : Nat
  text : String
  content : PILImage
deriving DecidableEq

/-! ### download_image (src/image_processor.py lines 11-17) -/

/-- Embeds download_image: on status 200 return the decoded body, otherwise
raise Exception with the fixed message and no further arguments. -/
def download_image (resp : HttpResp) : Except PyErr PILImage :=
  if resp.status = 200 then .ok resp.content
  else .error (.exn [.str "Image could not be retrieved"])

/-! ### convert_to_png (lines 20-22): PIL Image.convert to RGBA -/

/-- Embeds convert_to_png, i.e. image.convert the mode to RGBA: RGBA data is
copied unchanged; RGB gains a fully opaque alpha channel; L is replicated
into the three colour channels with a fully opaque alpha channel. -/
def convert_to_png : PILImage → PILImage
  | .rgba d => .rgba d
  | .rgb d => .rgba (d.map (List.map fun c => ⟨c.1, c.2.1, c.2.2, 255⟩))
  | .gray d => .rgba (d.map (List.map fun v => ⟨v, v, v, 255⟩))

/-! ### Output naming (main, lines 123-126) -/

/-- The ".png" suffix as a character list. -/
def pngSuffixL : List Char := ".png".toList

/-- The fixed output directory name. -/
def processedDir : List Char := "processed_images".toList

/-- POSIX os.path.join for a single pair: an absolute second component
discards the first; otherwise the parts are joined with a slash
(inserted only when the first part does not already end in one). -/
def osPathJoin (a b : List Char) : List Char :=
  if b.head? = some '/' then b
  else if a = [] ∨ a.getLast? = some '/' then a ++ b
  else a ++ '/' :: b

/-- Embeds the name normalization in main: append ".png" when the supplied
name does not already end with it, then join it under processed_images. -/
def finalName (new_name : List Char) : List Char :=
  osPathJoin processedDir (if pngSuffixL <:+ new_name then new_name else new_name ++ pngSuffixL)

lemma head_ne_slash {l : List Char} (h : '/' ∉ l) : l.head? ≠ some '/' := by
  cases l with
  | nil => simp
  | cons c t =>
    simp only [List.head?_cons, ne_eq, Option.some.injEq]
    intro hc
    exact h (hc ▸ List.mem_cons_self c t)

/-- C5: a supplied output name without path separators is placed directly
under processed_images, with ".png" appended exactly when it is missing. -/
theorem claim_C5_png_suffix (name : List Char) (hsep : '/' ∉ name) :
    (pngSuffixL <:+ name → finalName name = processedDir ++ '/' :: name) ∧
    (¬ pngSuffixL <:+ name →
      finalName name = processedDir ++ '/' :: (name ++ pngSuffixL)) := by
  constructor
  · intro hs
    unfold finalName osPathJoin
    rw [if_pos hs, if_neg (head_ne_slash hsep), if_neg (by decide)]
  · intro hn
    unfold finalName osPathJoin
    rw [if_neg hn]
    have hhead : (name ++ pngSuffixL).head? ≠ some '/' := by
      cases name with
      | nil => decide
      | cons c t =>
        simp only [List.cons_append, List.head?_cons, ne_eq, Option.some.injEq]
        intro hc
        exact hsep (hc ▸ List.mem_cons_self c t)
    rw [if_neg hhead, if_neg (by decide)]

/-- C5 witness: the names cat and cat.png both map to processed_images/cat.png. -/
theorem claim_C5_png_suffix_witness :
    finalName "cat".toList = "processed_images/cat.png".toList ∧
    finalName "cat.png".toList = "processed_images/cat.png".toList := by
  have h1 := (claim_C5_png_suffix "cat".toList (by decide)).2 (by decide)
  have h2 := (claim_C5_png_suffix "cat.png".toList (by decide)).1 (by decide)
  exact ⟨h1.trans (by decide), h2.trans (by decide)⟩

/-- C1: evaluating the naming rule at the absolute name /evil shows the
final path is /evil.png, which does not lie under processed_images:
os.path.join discards the directory when the second component is absolute. -/
theorem claim_C1_escape_eval :
    finalName "/evil".toList = "/evil.png".toList ∧
    ¬ (processedDir <+: finalName "/evil".toList) := by
  constructor
  · decide
  · decide

/-! ### C6: the format normalizer -/

/-- C6: convert_to_png is idempotent, and on an image already in RGBA mode it
returns the byte-identical buffer. -/
theorem claim_C6_normalizer_idempotent :
    (∀ d : Img, convert_to_png (.rgba d) = .rgba d) ∧
    (∀ x : PILImage, convert_to_png (convert_to_png x) = convert_to_png x) := by
  constructor
  · intro d
    rfl
  · intro x
    cases x <;> rfl

/-! ### C7: the image source resolver error -/

/-- C7 counterexample: two different non-success statuses produce the very
same raised exception, whose only argument is a fixed message; the error
therefore cannot carry the status code. -/
theorem claim_C7_no_status_counterexample :
    download_image ⟨403, "Forbidden", .gray []⟩ =
      download_image ⟨500, "Server Error", .gray []⟩ ∧
    download_image ⟨403, "Forbidden", .gray []⟩ =
      .error (.exn [.str "Image could not be retrieved"]) := by
  exact ⟨rfl, rfl⟩

/-- C7 amended: on any status other than 200 the resolver raises a generic
exception carrying only the fixed message, without the status code. -/
theorem claim_C7_fixed_error (resp : HttpResp) (h : resp.status ≠ 200) :
    download_image resp = .error (.exn [.str "Image could not be retrieved"]) := by
  unfold download_image
  rw [if_neg h]

/-- C7 witness: the amended statement at a concrete 404 response. -/
theorem claim_C7_fixed_error_witness :
    download_image ⟨404, "not found", .gray []⟩ =
      .error (.exn [.str "Image could not be retrieved"]) :=
  claim_C7_fixed_error ⟨404, "not found", .gray []⟩ (by decide)

/-! ### Grid helpers used by the model of the numpy / OpenCV operations -/

/-- Number of rows of a grid. -/
def gHeight (g : List (List α)) : Nat := g.length

/-- Number of columns of a grid (length of the first row, 0 when empty). -/
def gWidth (g : List (List α)) : Nat := (g.headD []).length

/-- Read a grid at row i, column j, with a default outside the stored data. -/
def gGet (g : List (List α)) (d : α) (i j : Nat) : α := (g.getD i []).getD j d

/-- Build an h-by-w grid from an index function. -/
def mkGrid (h w : Nat) (f : Nat → Nat → α) : List (List α) :=
  (List.range h).map fun i => (List.range w).map fun j => f i j

/-- The all-zero h-by-w mask. -/
def zeroGrid (h w : Nat) : Mask := mkGrid h w fun _ _ => 0

lemma gHeight_mkGrid (h w : Nat) (f : Nat → Nat → α) : gHeight (mkGrid h w f) = h := by
  simp [gHeight, mkGrid]

lemma gWidth_mkGrid (h w : Nat) (f : Nat → Nat → α) (hh : 0 < h) :
    gWidth (mkGrid h w f) = w := by
  obtain ⟨n, rfl⟩ := Nat.exists_eq_add_of_lt hh
  simp [gWidth, mkGrid, List.range_succ_eq_map]

lemma getD_range_map (n : Nat) (f : Nat → α) (d : α) (i : Nat) (hi : i < n) :
    ((List.range n).map f).getD i d = f i := by
  rw [List.getD_eq_getElem _ _ (by simpa using hi)]
  simp

lemma getD_range_map_oob (n : Nat) (f : Nat → α) (d : α) (i : Nat) (hi : n ≤ i) :
    ((List.range n).map f).getD i d = d :=
  List.getD_eq_default _ _ (by simpa using hi)

lemma gGet_mkGrid (h w : Nat) (f : Nat → Nat → α) (d : α) {i j : Nat}
    (hi : i < h) (hj : j < w) : gGet (mkGrid h w f) d i j = f i j := by
  unfold gGet mkGrid
  rw [getD_range_map h _ [] i hi, getD_range_map w _ d j hj]

lemma gGet_mkGrid_const (h w : Nat) (c : α) (i j : Nat) :
    gGet (mkGrid h w fun _ _ => c) c i j = c := by
  unfold gGet mkGrid
  by_cases hi : i < h
  · rw [getD_range_map h _ [] i hi]
    by_cases hj : j < w
    · rw [getD_range_map w _ c j hj]
    · rw [getD_range_map_oob w _ c j (Nat.le_of_not_lt hj)]
  · rw [getD_range_map_oob h _ [] i (Nat.le_of_not_lt hi)]
    simp

lemma gGet_zeroGrid (h w : Nat) (i j : Nat) : gGet (zeroGrid h w) 0 i j = 0 :=
  gGet_mkGrid_const h w 0 i j

lemma mkGrid_congr (h w : Nat) (f f' : Nat → Nat → α)
    (he : ∀ i j, i < h → j < w → f i j = f' i j) : mkGrid h w f = mkGrid h w f' := by
  unfold mkGrid
  refine List.map_congr_left fun i hi => ?_
  refine List.map_congr_left fun j hj => ?_
  exact he i j (List.mem_range.mp hi) (List.mem_range.mp hj)

lemma Wf_mkGrid (h w : Nat) (f : Nat → Nat → α) : Wf (mkGrid h w f) h w := by
  refine ⟨by simp [mkGrid], fun i hi => ?_⟩
  unfold mkGrid
  rw [List.getD_eq_getElem _ _ (by simpa using hi), List.getElem_map]
  simp

lemma Wf_dims {g : List (List α)} {h w : Nat} (hwf : Wf g h w) (hh : 0 < h) :
    gHeight g = h ∧ gWidth g = w := by
  obtain ⟨hl, hr⟩ := hwf
  refine ⟨hl, ?_⟩
  have h0 := hr 0 hh
  cases g with
  | nil =>
    simp only [List.length_nil] at hl
    omega
  | cons x t => simpa [gWidth] using h0

/-! ### Model of cv2.Canny (alpha edge detection, line 48)

The reference edge detector computes 3x3 Sobel gradients with replicated
borders, takes the L1 gradient magnitude, thins it by non-maximum
suppression along the quantized gradient direction, and keeps a pixel when
its magnitude exceeds the high threshold, or exceeds the low threshold and
is 8-connected to a kept pixel (hysteresis). -/

/-- Clamp an integer index into [0, n-1] (replicated border, n ≥ 1). -/
def clampIdx (n : Nat) (p : Int) : Nat :=
  if p ≤ 0 then 0 else min p.toNat (n - 1)

/-- Read a mask at integer coordinates with replicated (clamped) borders. -/
def getClamp (g : Mask) (i j : Int) : Nat :=
  gGet g 0 (clampIdx (gHeight g) i) (clampIdx (gWidth g) j)

/-- Horizontal 3x3 Sobel derivative at a pixel. -/
def sobelXAt (g : Mask) (i j : Int) : Int :=
  ((getClamp g (i-1) (j+1) : Int) + 2 * getClamp g i (j+1) + getClamp g (i+1) (j+1))
    - ((getClamp g (i-1) (j-1) : Int) + 2 * getClamp g i (j-1) + getClamp g (i+1) (j-1))

/-- Vertical 3x3 Sobel derivative at a pixel. -/
def sobelYAt (g : Mask) (i j : Int) : Int :=
  ((getClamp g (i+1) (j-1) : Int) + 2 * getClamp g (i+1) j + getClamp g (i+1) (j+1))
    - ((getClamp g (i-1) (j-1) : Int) + 2 * getClamp g (i-1) j + getClamp g (i-1) (j+1))

/-- L1 gradient magnitude. -/
def magAt (g : Mask) (i j : Int) : Nat := (sobelXAt g i j).natAbs + (sobelYAt g i j).natAbs

/-- Gradient magnitude with a zero border outside the image, as in the
padded magnitude buffer of the reference implementation. -/
def magExt (g : Mask) (i j : Int) : Nat :=
  if 0 ≤ i ∧ i < gHeight g ∧ 0 ≤ j ∧ j < gWidth g then magAt g i j else 0

/-- Non-maximum suppression: a pixel survives when its magnitude exceeds the
low threshold and is a local maximum along the quantized gradient direction
(fixed-point tangent comparison with tan 22.5 = 13573 / 32768, as in the
reference implementation; tie-breaking is one-sided). -/
def nmsAt (g : Mask) (low : Nat) (i j : Int) : Bool :=
  let m := magExt g i j
  if m ≤ low then false
  else
    let gx := sobelXAt g i j
    let gy := sobelYAt g i j
    let x := gx.natAbs
    let y := gy.natAbs * 32768
    if y < x * 13573 then
      decide (magExt g i (j-1) < m ∧ magExt g i (j+1) ≤ m)
    else if x * 13573 + x * 65536 < y then
      decide (magExt g (i-1) j < m ∧ magExt g (i+1) j ≤ m)
    else if (0 ≤ gx) = (0 ≤ gy) then
      decide (magExt g (i-1) (j-1) < m ∧ magExt g (i+1) (j+1) ≤ m)
    else
      decide (magExt g (i-1) (j+1) < m ∧ magExt g (i+1) (j-1) ≤ m)

/-- Read a Bool grid at integer coordinates, false outside. -/
def getBExt (cur : List (List Bool)) (i j : Int) : Bool :=
  if 0 ≤ i ∧ 0 ≤ j then gGet cur false i.toNat j.toNat else false

/-- Whether any of the 8 neighbours of a pixel is set. -/
def neighborAny (cur : List (List Bool)) (i j : Nat) : Bool :=
  getBExt cur (i-1) (j-1) || getBExt cur (i-1) j || getBExt cur (i-1) (j+1) ||
  getBExt cur i (j-1) || getBExt cur i (j+1) ||
  getBExt cur (i+1) (j-1) || getBExt cur (i+1) j || getBExt cur (i+1) (j+1)

/-- Seed of the hysteresis: pixels surviving suppression above the high threshold. -/
def strongGrid (g : Mask) (low high : Nat) : List (List Bool) :=
  mkGrid (gHeight g) (gWidth g) fun i j =>
    nmsAt g low i j && decide (high < magExt g (i : Int) (j : Int))

/-- One hysteresis propagation step: keep current pixels and add weak
candidates 8-connected to a current pixel. -/
def hystStep (g : Mask) (low : Nat) (cur : List (List Bool)) : List (List Bool) :=
  mkGrid (gHeight g) (gWidth g) fun i j =>
    gGet cur false i j || (nmsAt g low (i : Int) (j : Int) && neighborAny cur i j)

/-- Model of cv2.Canny on a single-channel map: hysteresis propagation is
iterated once per pixel, which reaches the connectivity fixpoint. Kept
pixels get value 255. -/
def canny (g : Mask) (low high : Nat) : Mask :=
  let final := (hystStep g low)^[gHeight g * gWidth g] (strongGrid g low high)
  mkGrid (gHeight g) (gWidth g) fun i j => if gGet final false i j then 255 else 0

/-! ### Model of cv2.dilate / cv2.morphologyEx MORPH_CLOSE (lines 51-56) -/

/-- Sample a mask at integer coordinates: none outside the image. -/
def sampleAt (g : Mask) (i j : Int) : Option Nat :=
  if 0 ≤ i ∧ i < gHeight g ∧ 0 ≤ j ∧ j < gWidth g then
    some (gGet g 0 i.toNat j.toNat)
  else none

/-- The in-bounds samples of a k-by-k structuring element (given by the
membership predicate ker) anchored at its centre over pixel (i, j).
Out-of-bounds positions are dropped, matching the constant border that the
reference morphology ignores (minus infinity for dilation, plus infinity
for erosion). -/
def windowVals (g : Mask) (ker : Nat → Nat → Bool) (k : Nat) (i j : Nat) : List Nat :=
  (List.range k).flatMap fun di =>
    (List.range k).filterMap fun dj =>
      if ker di dj then sampleAt g ((i : Int) + di - (k / 2 : Nat)) ((j : Int) + dj - (k / 2 : Nat))
      else none

/-- Grayscale dilation: maximum over the structuring element. -/
def dilateK (ker : Nat → Nat → Bool) (k : Nat) (g : Mask) : Mask :=
  mkGrid (gHeight g) (gWidth g) fun i j => (windowVals g ker k i j).foldr max 0

/-- Grayscale erosion: minimum over the structuring element (255 for an
empty window, the neutral element of 8-bit minimum). -/
def erodeK (ker : Nat → Nat → Bool) (k : Nat) (g : Mask) : Mask :=
  mkGrid (gHeight g) (gWidth g) fun i j => (windowVals g ker k i j).foldr min 255

/-- The all-ones square structuring element of np.ones((k, k)). -/
def onesKer : Nat → Nat → Bool := fun _ _ => true

/-- Floor of the square root, by bounded search (kernel-computable). -/
def floorSqrt (v : Nat) : Nat :=
  (List.range (v + 1)).foldl (fun acc n => if n * n ≤ v then n else acc) 0

/-- Nearest integer to the square root. -/
def roundSqrt (v : Nat) : Nat :=
  let n := floorSqrt v
  if (2 * n + 1) * (2 * n + 1) ≤ 4 * v then n + 1 else n

/-- Membership in the k-by-k elliptical structuring element of
getStructuringElement MORPH_ELLIPSE: row di covers the columns within the
rounded ellipse half-width around the centre column, as the reference
rasterizer computes it. -/
def ellipseKer (k : Nat) (di dj : Nat) : Bool :=
  let r := k / 2
  let dy : Int := (di : Int) - r
  if dy.natAbs ≤ r then
    let dx := if r = 0 then 0 else roundSqrt (r * r - dy.natAbs * dy.natAbs)
    decide ((r : Int) - dx ≤ dj ∧ (dj : Int) < min ((r : Int) + dx + 1) k)
  else false

/-- Morphological closing: dilation followed by erosion with the same element. -/
def closeK (ker : Nat → Nat → Bool) (k : Nat) (g : Mask) : Mask :=
  erodeK ker k (dilateK ker k g)

/-! ### Model of cv2.GaussianBlur with sigma 0 (line 59)

For sigma 0 and kernel sizes up to 7 the reference filter uses fixed dyadic
kernels; larger odd sizes use an exponential formula, approximated here by
the binomial kernel (no claim depends on those weights). An even or
non-positive kernel size is rejected by the filter itself. -/

/-- 1D kernel numerators for an odd kernel size. -/
def gaussNum : Nat → List Nat
  | 1 => [1]
  | 3 => [1, 2, 1]
  | 5 => [1, 4, 6, 4, 1]
  | 7 => [2, 7, 14, 18, 14, 7, 2]
  | k => (List.range k).map (Nat.choose (k - 1))

/-- Common denominator of the 1D kernel. -/
def gaussDen : Nat → Nat
  | 1 => 1
  | 3 => 4
  | 5 => 16
  | 7 => 64
  | k => 2 ^ (k - 1)

/-- Reflect-101 border index folding (the default border of the filter). -/
def reflect101 (len : Nat) (p : Int) : Nat :=
  if len ≤ 1 then 0
  else
    let m : Nat := 2 * len - 2
    let q := (p.emod m).toNat
    if q < len then q else m - q

/-- Read a mask at integer coordinates with reflect-101 borders. -/
def getReflect (g : Mask) (i j : Int) : Nat :=
  gGet g 0 (reflect101 (gHeight g) i) (reflect101 (gWidth g) j)

/-- The blurred value at one pixel: the 2D separable convolution with the
dyadic kernel, rounded to nearest. -/
def blurAt (g : Mask) (k : Nat) (i j : Nat) : Nat :=
  let num := gaussNum k
  let den := gaussDen k
  let r := k / 2
  (((List.range k).flatMap fun di =>
      (List.range k).map fun dj =>
        num.getD di 0 * num.getD dj 0 *
          getReflect g ((i : Int) + di - r) ((j : Int) + dj - r)).sum
    + den * den / 2) / (den * den)

/-- The fixed error the blur filter raises on an invalid kernel size. -/
def gaussianBlurKsizeErr : PyErr :=
  .exn [.str "GaussianBlur: ksize must be positive and odd"]

/-- Model of cv2.GaussianBlur with a k-by-k kernel and sigma 0. -/
def gaussianBlur (k : Int) (g : Mask) : Except PyErr Mask :=
  if 0 < k ∧ k.emod 2 = 1 then
    .ok (mkGrid (gHeight g) (gWidth g) fun i j => blurAt g k.toNat i j)
  else .error gaussianBlurKsizeErr

/-! ### Model of PIL Image.alpha_composite (line 70) -/

/-- The scaled division by 255 used by the reference compositor. -/
def shiftForDiv255 (x : Nat) : Nat := (x / 256 + x) / 256

/-- Source-over-destination compositing of one pixel, with the fixed-point
arithmetic (7 precision bits) of the reference implementation. -/
def compositePix (dst src : RGBA) : RGBA :=
  let blend := dst.a * (255 - src.a)
  let outa255 := src.a * 255 + blend
  if outa255 = 0 then ⟨0, 0, 0, 0⟩
  else
    let coef1 := src.a * 255 * 255 * 128 / outa255
    let coef2 := 255 * 128 - coef1
    ⟨shiftForDiv255 (src.r * coef1 + dst.r * coef2 + 128 * 128) / 128,
     shiftForDiv255 (src.g * coef1 + dst.g * coef2 + 128 * 128) / 128,
     shiftForDiv255 (src.b * coef1 + dst.b * coef2 + 128 * 128) / 128,
     shiftForDiv255 (outa255 + 128)⟩

/-- Pixelwise alpha compositing of the source image over the destination. -/
def alphaComposite (dst src : Img) : Img :=
  List.zipWith (List.zipWith compositePix) dst src

/-! ### add_white_outline (lines 40-72) -/

/-- The alpha plane of an RGBA buffer (np array slice at channel 3). -/
def alphaGrid (image : Img) : Mask := image.map (List.map RGBA.a)

/-- The white outline layer: opaque white colour with the mask as alpha. -/
def whiteLayer (m : Mask) : Img := m.map (List.map fun v => ⟨255, 255, 255, v⟩)

/-- The outline mask as computed inside add_white_outline: Canny edges of
the alpha plane with thresholds 100 / 200, dilated by the all-ones square
element, closed with the elliptical element, then Gaussian-blurred. -/
def outlineMaskRun (image : Img) (outline_width : Nat) (blur_radius : Int) :
    Except PyErr Mask :=
  gaussianBlur blur_radius
    (closeK (ellipseKer outline_width) outline_width
      (dilateK onesKer outline_width
        (canny (alphaGrid image) 100 200)))

/-- Embeds add_white_outline: build the outline mask from the alpha channel,
turn it into a white RGBA layer, and composite the original image over it.
The function itself performs no validation of blur_radius; the blur filter
raises on an invalid kernel size. -/
def add_white_outline (image : Img) (outline_width : Nat) (blur_radius : Int) :
    Except PyErr Img :=
  match outlineMaskRun image outline_width blur_radius with
  | .error e => .error e
  | .ok outline => .ok (alphaComposite (whiteLayer outline) image)

instance {ε α : Type} [DecidableEq ε] [DecidableEq α] : DecidableEq (Except ε α) := fun x y =>
  match x, y with
  | .ok a, .ok b => decidable_of_iff (a = b) (by simp)
  | .error a, .error b => decidable_of_iff (a = b) (by simp)
  | .ok _, .error _ => isFalse (by simp)
  | .error _, .ok _ => isFalse (by simp)

/-! ### A constant 255 alpha plane has no edges -/

lemma clampIdx_lt (n : Nat) (p : Int) (hn : 0 < n) : clampIdx n p < n := by
  unfold clampIdx
  split
  · exact hn
  · have h1 : min p.toNat (n - 1) ≤ n - 1 := Nat.min_le_right ..
    omega

lemma getClamp_const {A : Mask} {h w : Nat} (hh : 0 < h) (hw : 0 < w)
    (hH : gHeight A = h) (hW : gWidth A = w)
    (hA : ∀ i j, i < h → j < w → gGet A 0 i j = 255) :
    ∀ p q : Int, getClamp A p q = 255 := by
  intro p q
  unfold getClamp
  rw [hH, hW]
  exact hA _ _ (clampIdx_lt h p hh) (clampIdx_lt w q hw)

lemma sobelXAt_const {A : Mask} {h w : Nat} (hh : 0 < h) (hw : 0 < w)
    (hH : gHeight A = h) (hW : gWidth A = w)
    (hA : ∀ i j, i < h → j < w → gGet A 0 i j = 255) :
    ∀ p q : Int, sobelXAt A p q = 0 := by
  intro p q
  unfold sobelXAt
  simp only [getClamp_const hh hw hH hW hA]
  norm_num

lemma sobelYAt_const {A : Mask} {h w : Nat} (hh : 0 < h) (hw : 0 < w)
    (hH : gHeight A = h) (hW : gWidth A = w)
    (hA : ∀ i j, i < h → j < w → gGet A 0 i j = 255) :
    ∀ p q : Int, sobelYAt A p q = 0 := by
  intro p q
  unfold sobelYAt
  simp only [getClamp_const hh hw hH hW hA]
  norm_num

lemma magExt_const {A : Mask} {h w : Nat} (hh : 0 < h) (hw : 0 < w)
    (hH : gHeight A = h) (hW : gWidth A = w)
    (hA : ∀ i j, i < h → j < w → gGet A 0 i j = 255) :
    ∀ p q : Int, magExt A p q = 0 := by
  intro p q
  unfold magExt
  split
  · unfold magAt
    rw [sobelXAt_const hh hw hH hW hA, sobelYAt_const hh hw hH hW hA]
    rfl
  · rfl

lemma nmsAt_const {A : Mask} {h w : Nat} (hh : 0 < h) (hw : 0 < w)
    (hH : gHeight A = h) (hW : gWidth A = w)
    (hA : ∀ i j, i < h → j < w → gGet A 0 i j = 255) :
    ∀ p q : Int, nmsAt A 100 p q = false := by
  intro p q
  simp only [nmsAt, magExt_const hh hw hH hW hA]
  norm_num

lemma strongGrid_const {A : Mask} {h w : Nat} (hh : 0 < h) (hw : 0 < w)
    (hH : gHeight A = h) (hW : gWidth A = w)
    (hA : ∀ i j, i < h → j < w → gGet A 0 i j = 255) :
    strongGrid A 100 200 = mkGrid h w fun _ _ => false := by
  unfold strongGrid
  rw [hH, hW]
  refine mkGrid_congr _ _ _ _ fun i j _ _ => ?_
  rw [nmsAt_const hh hw hH hW hA]
  rfl

lemma hystStep_const {A : Mask} {h w : Nat} (hh : 0 < h) (hw : 0 < w)
    (hH : gHeight A = h) (hW : gWidth A = w)
    (hA : ∀ i j, i < h → j < w → gGet A 0 i j = 255) :
    hystStep A 100 (mkGrid h w fun _ _ => false) = mkGrid h w fun _ _ => false := by
  unfold hystStep
  rw [hH, hW]
  refine mkGrid_congr _ _ _ _ fun i j _ _ => ?_
  rw [gGet_mkGrid_const, nmsAt_const hh hw hH hW hA]
  rfl

lemma hystIter_const {A : Mask} {h w : Nat} (hh : 0 < h) (hw : 0 < w)
    (hH : gHeight A = h) (hW : gWidth A = w)
    (hA : ∀ i j, i < h → j < w → gGet A 0 i j = 255) :
    ∀ n, (hystStep A 100)^[n] (mkGrid h w fun _ _ => false) = mkGrid h w fun _ _ => false := by
  intro n
  induction n with
  | zero => rfl
  | succ n ih => rw [Function.iterate_succ_apply, hystStep_const hh hw hH hW hA, ih]

lemma canny_const {A : Mask} {h w : Nat} (hh : 0 < h) (hw : 0 < w)
    (hH : gHeight A = h) (hW : gWidth A = w)
    (hA : ∀ i j, i < h → j < w → gGet A 0 i j = 255) :
    canny A 100 200 = zeroGrid h w := by
  unfold canny
  rw [hH, hW, strongGrid_const hh hw hH hW hA, hystIter_const hh hw hH hW hA]
  unfold zeroGrid
  refine mkGrid_congr _ _ _ _ fun i j _ _ => ?_
  rw [gGet_mkGrid_const]
  rfl

/-! ### Morphology and blur of the all-zero mask -/

lemma windowVals_zero {h w : Nat} (ker : Nat → Nat → Bool) (k i j : Nat) :
    ∀ x ∈ windowVals (zeroGrid h w) ker k i j, x = 0 := by
  intro x hx
  unfold windowVals at hx
  rw [List.mem_flatMap] at hx
  obtain ⟨di, _, hx⟩ := hx
  rw [List.mem_filterMap] at hx
  obtain ⟨dj, _, hx⟩ := hx
  split at hx
  · unfold sampleAt at hx
    split at hx
    · rw [Option.some_inj] at hx
      rw [← hx]
      exact gGet_zeroGrid ..
    · exact absurd hx (by simp)
  · exact absurd hx (by simp)

lemma foldr_max_zero (l : List Nat) (hl : ∀ x ∈ l, x = 0) : l.foldr max 0 = 0 := by
  induction l with
  | nil => rfl
  | cons x t ih =>
    rw [List.foldr_cons, hl x (List.mem_cons_self ..),
      ih fun y hy => hl y (List.mem_cons_of_mem _ hy)]
    rfl

lemma foldr_min_le (l : List Nat) (b x : Nat) (hx : x ∈ l) : l.foldr min b ≤ x := by
  induction l with
  | nil => cases hx
  | cons y t ih =>
    rw [List.foldr_cons]
    rcases List.mem_cons.mp hx with h | h
    · rw [h]
      exact Nat.min_le_left ..
    · exact le_trans (Nat.min_le_right ..) (ih h)

lemma dilateK_zero (ker : Nat → Nat → Bool) (k : Nat) {h w : Nat} (hh : 0 < h) :
    dilateK ker k (zeroGrid h w) = zeroGrid h w := by
  unfold dilateK
  rw [show gHeight (zeroGrid h w) = h from gHeight_mkGrid ..,
    show gWidth (zeroGrid h w) = w from gWidth_mkGrid _ _ _ hh]
  unfold zeroGrid
  exact mkGrid_congr _ _ _ _ fun i j _ _ => foldr_max_zero _ (windowVals_zero ker k i j)

lemma erodeK_zero (ker : Nat → Nat → Bool) (k : Nat) {h w : Nat} (hh : 0 < h) (hw : 0 < w)
    (hk : 0 < k) (hker : ker (k / 2) (k / 2) = true) :
    erodeK ker k (zeroGrid h w) = zeroGrid h w := by
  unfold erodeK
  rw [show gHeight (zeroGrid h w) = h from gHeight_mkGrid ..,
    show gWidth (zeroGrid h w) = w from gWidth_mkGrid _ _ _ hh]
  unfold zeroGrid
  refine mkGrid_congr _ _ _ _ fun i j hi hj => ?_
  refine Nat.le_antisymm ?_ (Nat.zero_le _)
  refine foldr_min_le _ 255 0 ?_
  unfold windowVals
  rw [List.mem_flatMap]
  refine ⟨k / 2, List.mem_range.mpr (Nat.div_lt_self hk one_lt_two), ?_⟩
  rw [List.mem_filterMap]
  refine ⟨k / 2, List.mem_range.mpr (Nat.div_lt_self hk one_lt_two), ?_⟩
  rw [if_pos hker]
  unfold sampleAt
  have hci : (i : Int) + (k / 2 : Nat) - (k / 2 : Nat) = (i : Int) := add_sub_cancel_right ..
  have hcj : (j : Int) + (k / 2 : Nat) - (k / 2 : Nat) = (j : Int) := add_sub_cancel_right ..
  rw [hci, hcj]
  rw [if_pos ⟨Int.natCast_nonneg i,
    by rw [gHeight_mkGrid]; exact_mod_cast hi,
    Int.natCast_nonneg j,
    by rw [gWidth_mkGrid _ _ _ hh]; exact_mod_cast hj⟩]
  rw [Option.some_inj, Int.toNat_natCast, Int.toNat_natCast]
  exact gGet_zeroGrid ..

lemma closeK_zero (ker : Nat → Nat → Bool) (k : Nat) {h w : Nat} (hh : 0 < h) (hw : 0 < w)
    (hk : 0 < k) (hker : ker (k / 2) (k / 2) = true) :
    closeK ker k (zeroGrid h w) = zeroGrid h w := by
  unfold closeK
  rw [dilateK_zero ker k hh, erodeK_zero ker k hh hw hk hker]

lemma blurAt_zero {h w : Nat} (i j : Nat) : blurAt (zeroGrid h w) 5 i j = 0 := by
  simp only [blurAt]
  have h1 : ∀ l : List Nat, (∀ x ∈ l, x = 0) →
      (l.sum + gaussDen 5 * gaussDen 5 / 2) / (gaussDen 5 * gaussDen 5) = 0 := by
    intro l hl
    rw [List.sum_eq_zero hl]
    decide
  refine h1 _ fun x hx => ?_
  rw [List.mem_flatMap] at hx
  obtain ⟨di, _, hx⟩ := hx
  rw [List.mem_map] at hx
  obtain ⟨dj, _, rfl⟩ := hx
  unfold getReflect
  rw [gGet_zeroGrid]
  exact Nat.mul_zero _

lemma gaussianBlur5_zero {h w : Nat} (hh : 0 < h) :
    gaussianBlur 5 (zeroGrid h w) = .ok (zeroGrid h w) := by
  unfold gaussianBlur
  rw [if_pos (by decide)]
  rw [show gHeight (zeroGrid h w) = h from gHeight_mkGrid ..,
    show gWidth (zeroGrid h w) = w from gWidth_mkGrid _ _ _ hh]
  rw [Except.ok.injEq]
  conv_rhs => rw [zeroGrid]
  exact mkGrid_congr _ _ _ _ fun i j _ _ => blurAt_zero i j

/-! ### Alpha compositing over a fully transparent layer is the identity -/

lemma compositePix_fullAlpha (d p : RGBA) (hr : p.r < 256) (hg : p.g < 256)
    (hb : p.b < 256) (ha : p.a = 255) : compositePix d p = p := by
  obtain ⟨r, g, b, a⟩ := p
  simp only at hr hg hb ha
  subst ha
  simp only [compositePix, shiftForDiv255]
  norm_num
  omega

lemma zipWith_replicate_id (row : List RGBA) (d : RGBA)
    (hp : ∀ p ∈ row, compositePix d p = p) :
    List.zipWith compositePix (List.replicate row.length d) row = row := by
  induction row with
  | nil => rfl
  | cons p t ih =>
    rw [List.length_cons, List.replicate_succ, List.zipWith_cons_cons]
    rw [hp p (List.mem_cons_self ..), ih fun q hq => hp q (List.mem_cons_of_mem _ hq)]

lemma Wf_row_len {g : List (List α)} {h w : Nat} (hwf : Wf g h w) :
    ∀ row ∈ g, row.length = w := by
  intro row hrow
  obtain ⟨i, hi, rfl⟩ := List.mem_iff_getElem.mp hrow
  have h2 := hwf.2 i (hwf.1 ▸ hi)
  rwa [List.getD_eq_getElem _ _ hi] at h2

lemma alphaComposite_replicate (l : List (List RGBA)) (w : Nat) (d : RGBA)
    (hw : ∀ row ∈ l, row.length = w)
    (hp : ∀ row ∈ l, ∀ p ∈ row, compositePix d p = p) :
    List.zipWith (List.zipWith compositePix) (List.replicate l.length (List.replicate w d)) l
      = l := by
  induction l with
  | nil => rfl
  | cons row t ih =>
    rw [List.length_cons, List.replicate_succ, List.zipWith_cons_cons]
    have h1 : List.zipWith compositePix (List.replicate w d) row = row := by
      rw [← hw row (List.mem_cons_self ..)]
      exact zipWith_replicate_id row d (hp row (List.mem_cons_self ..))
    rw [h1, ih (fun r hr => hw r (List.mem_cons_of_mem _ hr))
      (fun r hr => hp r (List.mem_cons_of_mem _ hr))]

lemma range_map_const (n : Nat) (c : α) :
    (List.range n).map (fun _ => c) = List.replicate n c := by
  have h1 : ∀ b ∈ (List.range n).map (fun _ => c), b = c := by
    intro b hb
    rw [List.mem_map] at hb
    obtain ⟨_, _, rfl⟩ := hb
    rfl
  have h2 := List.eq_replicate_of_mem h1
  rwa [List.length_map, List.length_range] at h2

lemma mkGrid_const_replicate (h w : Nat) (c : α) :
    mkGrid h w (fun _ _ => c) = List.replicate h (List.replicate w c) := by
  unfold mkGrid
  simp only [range_map_const]

lemma whiteLayer_zero (h w : Nat) :
    whiteLayer (zeroGrid h w) = List.replicate h (List.replicate w ⟨255, 255, 255, 0⟩) := by
  unfold whiteLayer zeroGrid mkGrid
  simp only [List.map_map, Function.comp_def, range_map_const, List.map_replicate]

lemma getD_map_eq (f : α → β) (l : List α) (d : α) (n : Nat) :
    (l.map f).getD n (f d) = f (l.getD n d) := by
  induction l generalizing n with
  | nil => simp
  | cons x t ih => cases n <;> simp [ih]

lemma Wf_map_map (f : α → β) {g : List (List α)} {h w : Nat} (hwf : Wf g h w) :
    Wf (g.map (List.map f)) h w := by
  obtain ⟨hl, hr⟩ := hwf
  refine ⟨by simpa using hl, fun i hi => ?_⟩
  have h1 : (g.map (List.map f)).getD i [] = (g.getD i []).map f :=
    getD_map_eq (List.map f) g [] i
  rw [h1, List.length_map]
  exact hr i hi

lemma Wf_alphaGrid {img : Img} {h w : Nat} (hwf : Wf img h w) : Wf (alphaGrid img) h w :=
  Wf_map_map RGBA.a hwf

lemma gGet_alphaGrid (img : Img) (i j : Nat) :
    gGet (alphaGrid img) 0 i j = (gGet img ⟨0, 0, 0, 0⟩ i j).a := by
  unfold gGet alphaGrid
  have h1 : (img.map (List.map RGBA.a)).getD i [] = (img.getD i []).map RGBA.a :=
    getD_map_eq (List.map RGBA.a) img [] i
  rw [h1]
  exact getD_map_eq RGBA.a (img.getD i []) ⟨0, 0, 0, 0⟩ j

lemma gGet_alpha_255 {img : Img} {h w : Nat} (hwf : Wf img h w)
    (hpx : ∀ row ∈ img, ∀ p ∈ row, p.a = 255) :
    ∀ i j, i < h → j < w → gGet (alphaGrid img) 0 i j = 255 := by
  intro i j hi hj
  rw [gGet_alphaGrid]
  have hi1 : i < img.length := by rw [hwf.1]; exact hi
  unfold gGet
  rw [List.getD_eq_getElem _ _ hi1]
  have hrow : img[i] ∈ img := List.getElem_mem ..
  have hj1 : j < img[i].length := by rw [Wf_row_len hwf _ hrow]; exact hj
  rw [List.getD_eq_getElem _ _ hj1]
  exact hpx _ hrow _ (List.getElem_mem ..)

/-! ### Stage shape preservation -/

lemma Wf_canny {g : Mask} {h w : Nat} (hwf : Wf g h w) (hh : 0 < h) (low high : Nat) :
    Wf (canny g low high) h w := by
  obtain ⟨hH, hW⟩ := Wf_dims hwf hh
  unfold canny
  rw [hH, hW]
  exact Wf_mkGrid ..

lemma Wf_dilateK (ker : Nat → Nat → Bool) (k : Nat) {g : Mask} {h w : Nat}
    (hwf : Wf g h w) (hh : 0 < h) : Wf (dilateK ker k g) h w := by
  obtain ⟨hH, hW⟩ := Wf_dims hwf hh
  unfold dilateK
  rw [hH, hW]
  exact Wf_mkGrid ..

lemma Wf_erodeK (ker : Nat → Nat → Bool) (k : Nat) {g : Mask} {h w : Nat}
    (hwf : Wf g h w) (hh : 0 < h) : Wf (erodeK ker k g) h w := by
  obtain ⟨hH, hW⟩ := Wf_dims hwf hh
  unfold erodeK
  rw [hH, hW]
  exact Wf_mkGrid ..

lemma Wf_closeK (ker : Nat → Nat → Bool) (k : Nat) {g : Mask} {h w : Nat}
    (hwf : Wf g h w) (hh : 0 < h) : Wf (closeK ker k g) h w :=
  Wf_erodeK ker k (Wf_dilateK ker k hwf hh) hh

lemma gaussianBlur5_ok {g : Mask} {h w : Nat} (hwf : Wf g h w) (hh : 0 < h) :
    gaussianBlur 5 g = .ok (mkGrid h w fun i j => blurAt g 5 i j) := by
  obtain ⟨hH, hW⟩ := Wf_dims hwf hh
  unfold gaussianBlur
  rw [if_pos (by decide), hH, hW]
  rfl

lemma Wf_alphaComposite {d s : Img} {h w : Nat} (hd : Wf d h w) (hs : Wf s h w) :
    Wf (alphaComposite d s) h w := by
  refine ⟨by simp [alphaComposite, hd.1, hs.1], fun i hi => ?_⟩
  have hi1 : i < (List.zipWith (List.zipWith compositePix) d s).length := by
    rw [List.length_zipWith, hd.1, hs.1]
    simpa using hi
  unfold alphaComposite
  rw [List.getD_eq_getElem _ _ hi1, List.getElem_zipWith, List.length_zipWith]
  have hdi : i < d.length := by rw [hd.1]; exact hi
  have hsi : i < s.length := by rw [hs.1]; exact hi
  have hd2 : d[i].length = w := by
    have := hd.2 i hi
    rwa [List.getD_eq_getElem _ _ hdi] at this
  have hs2 : s[i].length = w := by
    have := hs.2 i hi
    rwa [List.getD_eq_getElem _ _ hsi] at this
  rw [hd2, hs2]
  exact Nat.min_self w

/-! ### C2: a fully opaque image yields an all-zero outline mask -/

/-- C2: for any well-formed RGBA image whose channels are bytes and whose
alpha channel is 255 everywhere, the outline mask computed by
add_white_outline with the default parameters is zero at every pixel, and
the composited output is the input image itself (no visible outline). -/
theorem claim_C2_full_alpha_no_outline (img : Img) (h w : Nat) (hwf : Wf img h w)
    (hh : 0 < h) (hw : 0 < w)
    (hpx : ∀ row ∈ img, ∀ p ∈ row, p.r < 256 ∧ p.g < 256 ∧ p.b < 256 ∧ p.a = 255) :
    outlineMaskRun img 10 5 = .ok (zeroGrid h w) ∧
    add_white_outline img 10 5 = .ok img := by
  have hA : Wf (alphaGrid img) h w := Wf_alphaGrid hwf
  obtain ⟨hH, hW⟩ := Wf_dims hA hh
  have h255 : ∀ i j, i < h → j < w → gGet (alphaGrid img) 0 i j = 255 :=
    gGet_alpha_255 hwf fun row hrow p hp => (hpx row hrow p hp).2.2.2
  have hc : canny (alphaGrid img) 100 200 = zeroGrid h w := canny_const hh hw hH hW h255
  have hmask : outlineMaskRun img 10 5 = .ok (zeroGrid h w) := by
    unfold outlineMaskRun
    rw [hc, dilateK_zero _ _ hh, closeK_zero _ _ hh hw (by norm_num) (by decide),
      gaussianBlur5_zero hh]
  refine ⟨hmask, ?_⟩
  unfold add_white_outline
  rw [hmask]
  show Except.ok (alphaComposite (whiteLayer (zeroGrid h w)) img) = Except.ok img
  have hcomp : alphaComposite (whiteLayer (zeroGrid h w)) img = img := by
    unfold alphaComposite
    rw [whiteLayer_zero, ← hwf.1]
    exact alphaComposite_replicate img w _ (Wf_row_len hwf)
      fun row hrow p hp => compositePix_fullAlpha _ _ (hpx row hrow p hp).1
        (hpx row hrow p hp).2.1 (hpx row hrow p hp).2.2.1 (hpx row hrow p hp).2.2.2
  rw [hcomp]

/-- A concrete fully opaque 2-by-2 image. -/
def imgFullAlpha2 : Img :=
  [[⟨10, 20, 30, 255⟩, ⟨0, 0, 0, 255⟩], [⟨255, 255, 255, 255⟩, ⟨5, 5, 5, 255⟩]]

/-- C2 witness: the fully opaque 2-by-2 image gives the zero mask and an
unchanged composited output. -/
theorem claim_C2_full_alpha_no_outline_witness :
    outlineMaskRun imgFullAlpha2 10 5 = .ok (zeroGrid 2 2) ∧
    add_white_outline imgFullAlpha2 10 5 = .ok imgFullAlpha2 :=
  claim_C2_full_alpha_no_outline imgFullAlpha2 2 2 (by decide) (by decide) (by decide) (by decide)

/-! ### C10: the outline synthesizer preserves shape and format -/

/-- C10: on any well-formed RGBA input, add_white_outline with the default
parameters succeeds and returns an RGBA image of the same height and width. -/
theorem claim_C10_shape (img : Img) (h w : Nat) (hwf : Wf img h w)
    (hh : 0 < h) (hw : 0 < w) :
    ∃ out, add_white_outline img 10 5 = .ok out ∧ Wf out h w := by
  have hA : Wf (alphaGrid img) h w := Wf_alphaGrid hwf
  have hE : Wf (canny (alphaGrid img) 100 200) h w := Wf_canny hA hh 100 200
  have hD : Wf (dilateK onesKer 10 (canny (alphaGrid img) 100 200)) h w :=
    Wf_dilateK onesKer 10 hE hh
  have hC : Wf (closeK (ellipseKer 10) 10
      (dilateK onesKer 10 (canny (alphaGrid img) 100 200))) h w :=
    Wf_closeK (ellipseKer 10) 10 hD hh
  have hB := gaussianBlur5_ok hC hh
  refine ⟨alphaComposite (whiteLayer (mkGrid h w fun i j =>
    blurAt (closeK (ellipseKer 10) 10
      (dilateK onesKer 10 (canny (alphaGrid img) 100 200))) 5 i j)) img, ?_, ?_⟩
  · unfold add_white_outline outlineMaskRun
    rw [hB]
  · exact Wf_alphaComposite (Wf_map_map _ (Wf_mkGrid ..)) hwf

/-- C10 witness: a concrete 1-by-2 image keeps its shape. -/
theorem claim_C10_shape_witness :
    ∃ out, add_white_outline [[⟨1, 2, 3, 4⟩, ⟨5, 6, 7, 8⟩]] 10 5 = .ok out ∧
      Wf out 1 2 :=
  claim_C10_shape [[⟨1, 2, 3, 4⟩, ⟨5, 6, 7, 8⟩]] 1 2 (by decide) (by decide) (by decide)

/-! ### C8: validation of the blur kernel size -/

/-- A second definition following the wording of the spec, for comparison
with add_white_outline: here the synthesizer itself validates blur_radius
with an explicit check and rejects even or non-positive values before any
blur filter call. -/
def add_white_outline_speccheck (image : Img) (outline_width : Nat) (blur_radius : Int) :
    Except PyErr Img :=
  if 0 < blur_radius ∧ blur_radius.emod 2 = 1 then
    add_white_outline image outline_width blur_radius
  else .error (.exn [.str "blur_radius must be odd and positive"])

/-- C8 counterexample: with the even blur_radius 4, add_white_outline fails
with the kernel-size error of the blur filter itself, so the invalid value was
passed to the blur filter rather than rejected by an explicit check in the
synthesizer; it differs from the spec-checked variant, whose explicit check
rejects the value with its own error. -/
theorem claim_C8_no_explicit_check_counterexample :
    add_white_outline [[⟨0, 0, 0, 255⟩]] 10 4 = .error gaussianBlurKsizeErr ∧
    add_white_outline [[⟨0, 0, 0, 255⟩]] 10 4 ≠
      add_white_outline_speccheck [[⟨0, 0, 0, 255⟩]] 10 4 := by
  constructor
  · decide
  · decide

/-- C8 amended: add_white_outline performs no validation of blur_radius
itself; for every odd positive blur_radius the blur step is well-defined
and the function succeeds, while any even or non-positive blur_radius
reaches the blur filter and fails with the kernel-size error of the filter. -/
theorem claim_C8_blur_radius (br : Int) (image : Img) :
    (0 < br ∧ br.emod 2 = 1 → ∃ out, add_white_outline image 10 br = .ok out) ∧
    (¬ (0 < br ∧ br.emod 2 = 1) →
      add_white_outline image 10 br = .error gaussianBlurKsizeErr) := by
  constructor
  · intro hbr
    unfold add_white_outline outlineMaskRun gaussianBlur
    rw [if_pos hbr]
    exact ⟨_, rfl⟩
  · intro hbr
    unfold add_white_outline outlineMaskRun gaussianBlur
    rw [if_neg hbr]

/-- C8 witness: the amended statement at the odd kernel size 5 and the even
kernel size 6 on a concrete image. -/
theorem claim_C8_blur_radius_witness :
    (∃ out, add_white_outline [[⟨0, 0, 0, 255⟩]] 10 5 = .ok out) ∧
    add_white_outline [[⟨0, 0, 0, 255⟩]] 10 6 = .error gaussianBlurKsizeErr :=
  ⟨(claim_C8_blur_radius 5 [[⟨0, 0, 0, 255⟩]]).1 (by decide),
    (claim_C8_blur_radius 6 [[⟨0, 0, 0, 255⟩]]).2 (by decide)⟩

/-! ### The on-disk state and process_image (lines 79-105)

The working directory is an association list from file names to the image
stored in the file (file bytes are abstracted by the image they encode).
Saving prepends, so a lookup sees the most recent write; removal drops
every binding of the name. The two network calls are injected as
arguments. A run returns the final directory state together with the
exception that terminated it, if any. -/

/-- The on-disk state: file name to stored image. -/
abbrev FS := List (List Char × PILImage)

/-- Look a file up (first match wins, as the most recent write is first). -/
def lookupF : FS → List Char → Option PILImage
  | [], _ => none
  | (n, v) :: t, m => if n = m then some v else lookupF t m

/-- Write a file (image.save): the new binding shadows any previous one. -/
def fsSet (fs : FS) (n : List Char) (v : PILImage) : FS := (n, v) :: fs

/-- Drop every binding of a name. -/
def fsErase (fs : FS) (n : List Char) : FS := fs.filter fun p => decide (p.1 ≠ n)

/-- Embeds os.remove: delete the file, raising when it does not exist. -/
def osRemove (fs : FS) (n : List Char) : Except PyErr FS :=
  match lookupF fs n with
  | some _ => .ok (fsErase fs n)
  | none => .error (.exn [.str "FileNotFoundError"])

/-- Embeds remove_background (lines 25-37): open the uploaded file (raising
when missing), post it to the service, decode the body on the OK status
(200), and otherwise raise Exception with the literal string Error:, the
status code and the body text as arguments. -/
def remove_background (fs : FS) (image_path : List Char) (api_key : String)
    (resp : HttpResp) : Except PyErr PILImage :=
  match lookupF fs image_path with
  | none => .error (.exn [.str "FileNotFoundError"])
  | some _ =>
    if resp.status = 200 then .ok resp.content
    else .error (.exn [.str "Error:", .int resp.status, .str resp.text])

/-- Embeds rename_image (lines 75-76): save the image under the new name. -/
def rename_image (fs : FS) (image : PILImage) (new_name : List Char) : FS :=
  fsSet fs new_name image

/-- add_white_outline as called on a PIL image: a 4-channel RGBA image is
processed; on an image without an alpha channel the numpy slice at channel
3 raises IndexError. -/
def add_white_outline_pil (image : PILImage) (outline_width : Nat) (blur_radius : Int) :
    Except PyErr PILImage :=
  match image with
  | .rgba d => (add_white_outline d outline_width blur_radius).map .rgba
  | _ => .error (.exn [.str "IndexError: index 3 is out of bounds for axis 2"])

/-- The first temporary file name. -/
def tempName : List Char := "temp.png".toList

/-- The second temporary file name. -/
def tempNoBgName : List Char := "temp_no_bg.png".toList

/-- The part of process_image after the source image is in hand: convert to
RGBA, save temp.png, remove the background (through the service), save
temp_no_bg.png, outline, save under the final name, then delete the two
temporary files. An exception at any step terminates the run with the disk
state reached so far. -/
def process_image_from (fs : FS) (image : PILImage) (rbResp : HttpResp)
    (api_key : String) (new_name : List Char) : FS × Option PyErr :=
  let png_image := convert_to_png image
  let fs1 := fsSet fs tempName png_image
  match remove_background fs1 tempName api_key rbResp with
  | .error e => (fs1, some e)
  | .ok bg_removed_image =>
    let fs2 := fsSet fs1 tempNoBgName bg_removed_image
    match add_white_outline_pil bg_removed_image 10 5 with
    | .error e => (fs2, some e)
    | .ok outlined_image =>
      let fs3 := rename_image fs2 outlined_image new_name
      match osRemove fs3 tempName with
      | .error e => (fs3, some e)
      | .ok fs4 =>
        match osRemove fs4 tempNoBgName with
        | .error e => (fs4, some e)
        | .ok fs5 => (fs5, none)

/-- Embeds process_image (lines 79-105): resolve the source image (download
when the location starts with http, otherwise open the local file, raising
when it is missing), then run the rest of the pipeline. -/
def process_image (fs : FS) (url : List Char) (dlResp rbResp : HttpResp)
    (api_key : String) (new_name : List Char) : FS × Option PyErr :=
  match
    (if "http".toList.isPrefixOf url then download_image dlResp
     else
       match lookupF fs url with
       | some img => .ok img
       | none => .error (.exn [.str "FileNotFoundError"])) with
  | .error e => (fs, some e)
  | .ok image => process_image_from fs image rbResp api_key new_name

lemma lookupF_fsSet_self (fs : FS) (n : List Char) (v : PILImage) :
    lookupF (fsSet fs n v) n = some v := by
  simp [fsSet, lookupF]

lemma lookupF_fsSet_ne (fs : FS) (n m : List Char) (v : PILImage) (h : m ≠ n) :
    lookupF (fsSet fs n v) m = lookupF fs m := by
  simp only [fsSet, lookupF]
  rw [if_neg fun he => h he.symm]

lemma lookupF_fsErase_self (fs : FS) (n : List Char) :
    lookupF (fsErase fs n) n = none := by
  induction fs with
  | nil => rfl
  | cons p t ih =>
    unfold fsErase at ih ⊢
    rw [List.filter_cons]
    split
    · next hkeep =>
      have hne : p.1 ≠ n := by simpa using hkeep
      simp only [lookupF]
      rw [if_neg hne]
      exact ih
    · exact ih

lemma lookupF_fsErase_ne (fs : FS) (n m : List Char) (h : m ≠ n) :
    lookupF (fsErase fs n) m = lookupF fs m := by
  induction fs with
  | nil => rfl
  | cons p t ih =>
    unfold fsErase at ih ⊢
    rw [List.filter_cons]
    split
    · next hkeep =>
      simp only [lookupF]
      by_cases hp : p.1 = m
      · rw [if_pos hp, if_pos hp]
      · rw [if_neg hp, if_neg hp]
        exact ih
    · next hdrop =>
      have hpn : p.1 = n := by
        by_contra hc
        exact hdrop (by simpa using hc)
      simp only [lookupF]
      rw [if_neg fun he => h (by rw [← he, hpn])]
      exact ih

lemma osRemove_ok {fs fs2 : FS} {n : List Char} (h : osRemove fs n = .ok fs2) :
    fs2 = fsErase fs n := by
  unfold osRemove at h
  split at h
  · rw [Except.ok.injEq] at h
    exact h.symm
  · exact absurd h (by simp)

lemma process_image_from_cleanup (fs : FS) (image : PILImage) (rb : HttpResp)
    (key : String) (nn : List Char) (fs2 : FS)
    (hok : process_image_from fs image rb key nn = (fs2, none)) :
    lookupF fs2 tempName = none ∧ lookupF fs2 tempNoBgName = none := by
  simp only [process_image_from] at hok
  split at hok
  · exact absurd hok (by simp)
  · next x1 bg heqbg =>
    split at hok
    · exact absurd hok (by simp)
    · next x2 outlined heqout =>
      split at hok
      · exact absurd hok (by simp)
      · next x3 fs4 heq3 =>
        split at hok
        · exact absurd hok (by simp)
        · next x4 fs5 heq4 =>
          rw [Prod.mk.injEq] at hok
          obtain ⟨rfl, -⟩ := hok
          obtain rfl := osRemove_ok heq4
          obtain rfl := osRemove_ok heq3
          constructor
          · rw [lookupF_fsErase_ne _ _ _ (by decide), lookupF_fsErase_self]
          · rw [lookupF_fsErase_self]

lemma process_image_from_err (fs : FS) (image : PILImage) (rb : HttpResp)
    (key : String) (nn : List Char) (hrb : rb.status ≠ 200) :
    process_image_from fs image rb key nn =
      (fsSet fs tempName (convert_to_png image),
        some (.exn [.str "Error:", .int rb.status, .str rb.text])) := by
  have herr : remove_background (fsSet fs tempName (convert_to_png image)) tempName key rb
      = .error (.exn [.str "Error:", .int rb.status, .str rb.text]) := by
    unfold remove_background
    rw [lookupF_fsSet_self]
    show (if rb.status = 200 then Except.ok rb.content
      else Except.error (PyErr.exn [.str "Error:", .int rb.status, .str rb.text])) = _
    rw [if_neg hrb]
  simp only [process_image_from]
  rw [herr]

/-- C4: whenever the pipeline reaches the background-removal call (the
source image was obtained, by download or from disk) and the service
responds with a non-success status, the run aborts with the exception
carrying the status code and the body text, and nothing is written at the
output name. -/
theorem claim_C4_bg_failure (fs : FS) (url : List Char) (dl rb : HttpResp) (key : String)
    (nn : List Char)
    (hsrc : ("http".toList.isPrefixOf url = true ∧ dl.status = 200) ∨
      ("http".toList.isPrefixOf url = false ∧ ∃ im, lookupF fs url = some im))
    (hrb : rb.status ≠ 200) (hnn : nn ≠ tempName) :
    (process_image fs url dl rb key nn).2 =
      some (.exn [.str "Error:", .int rb.status, .str rb.text]) ∧
    lookupF (process_image fs url dl rb key nn).1 nn = lookupF fs nn := by
  have hE : ∃ img, process_image fs url dl rb key nn =
      (fsSet fs tempName (convert_to_png img),
        some (.exn [.str "Error:", .int rb.status, .str rb.text])) := by
    rcases hsrc with ⟨hp, hdl⟩ | ⟨hp, im, him⟩
    · refine ⟨dl.content, ?_⟩
      unfold process_image
      rw [if_pos hp]
      unfold download_image
      rw [if_pos hdl]
      exact process_image_from_err fs dl.content rb key nn hrb
    · refine ⟨im, ?_⟩
      unfold process_image
      rw [if_neg (by rw [hp]; simp)]
      rw [him]
      exact process_image_from_err fs im rb key nn hrb
  obtain ⟨img, hE⟩ := hE
  rw [hE]
  exact ⟨rfl, lookupF_fsSet_ne fs tempName nn (convert_to_png img) hnn⟩

/-- C4 witness: a concrete run whose background-removal call returns 403. -/
theorem claim_C4_bg_failure_witness :
    (process_image [] "http://host/cat.png".toList ⟨200, "", .rgba [[⟨1, 2, 3, 255⟩]]⟩
        ⟨403, "Forbidden", .gray []⟩ "key" "processed_images/cat.png".toList).2 =
      some (.exn [.str "Error:", .int 403, .str "Forbidden"]) ∧
    lookupF (process_image [] "http://host/cat.png".toList ⟨200, "", .rgba [[⟨1, 2, 3, 255⟩]]⟩
        ⟨403, "Forbidden", .gray []⟩ "key" "processed_images/cat.png".toList).1
        "processed_images/cat.png".toList =
      lookupF [] "processed_images/cat.png".toList :=
  claim_C4_bg_failure [] _ _ _ "key" _ (.inl ⟨by decide, rfl⟩) (by decide) (by decide)

/-- C9: after every run of process_image that terminates without an
exception, neither temp.png nor temp_no_bg.png exists on disk. -/
theorem claim_C9_temp_cleanup (fs : FS) (url : List Char) (dl rb : HttpResp)
    (key : String) (nn : List Char)
    (hok : (process_image fs url dl rb key nn).2 = none) :
    lookupF (process_image fs url dl rb key nn).1 tempName = none ∧
    lookupF (process_image fs url dl rb key nn).1 tempNoBgName = none := by
  have hpair : process_image fs url dl rb key nn =
      ((process_image fs url dl rb key nn).1, none) := by
    conv_lhs => rw [← Prod.mk.eta (p := process_image fs url dl rb key nn)]
    rw [hok]
  unfold process_image at hpair ⊢
  split at hpair
  · rw [Prod.mk.injEq] at hpair
    exact absurd hpair.2 (by simp)
  · next x img heqimg =>
    exact process_image_from_cleanup fs img rb key nn _ hpair

/-- C9 witness: a concrete successful end-to-end run. -/
theorem claim_C9_temp_cleanup_witness :
    lookupF (process_image [] "http://host/cat.png".toList
        ⟨200, "", .rgba [[⟨1, 2, 3, 255⟩]]⟩ ⟨200, "", .rgba [[⟨4, 5, 6, 200⟩]]⟩ "key"
        "processed_images/cat.png".toList).1 tempName = none ∧
    lookupF (process_image [] "http://host/cat.png".toList
        ⟨200, "", .rgba [[⟨1, 2, 3, 255⟩]]⟩ ⟨200, "", .rgba [[⟨4, 5, 6, 200⟩]]⟩ "key"
        "processed_images/cat.png".toList).1 tempNoBgName = none :=
  claim_C9_temp_cleanup [] "http://host/cat.png".toList
    ⟨200, "", .rgba [[⟨1, 2, 3, 255⟩]]⟩ ⟨200, "", .rgba [[⟨4, 5, 6, 200⟩]]⟩ "key"
    "processed_images/cat.png".toList (by decide)

/-- The image stored in the local source file of the C3 run. -/
def catInput : PILImage := .rgba [[⟨1, 2, 3, 255⟩]]

/-- C3: evaluating process_image at a failing input: local source file
cat_input.png present, background-removal response 403. The run terminates
with the error and temp.png is still on disk: the cleanup at the end of
process_image is never reached on the failure path. -/
theorem claim_C3_temp_left_eval :
    (process_image [("cat_input.png".toList, catInput)] "cat_input.png".toList
        ⟨0, "", .gray []⟩ ⟨403, "Forbidden", .gray []⟩ "key"
        "processed_images/cat.png".toList).2 =
      some (.exn [.str "Error:", .int 403, .str "Forbidden"]) ∧
    lookupF (process_image [("cat_input.png".toList, catInput)] "cat_input.png".toList
        ⟨0, "", .gray []⟩ ⟨403, "Forbidden", .gray []⟩ "key"
        "processed_images/cat.png".toList).1 tempName = some catInput := by
  constructor
  · decide
  · decide

end ImageProcessor

